import Mathlib

/-!
# space-cloud: the load-config sequence and the file-store admin handlers

A shallow embedding of

* `Server.LoadConfig` (`utils/server/server.go`), and
* the six file-store handlers of `gateway/utils/handlers/config_file.go`,

together with the properties the specification states about them.

Go values are embedded as follows.  An `error` is `Option GoError`
(`none` is `nil`).  A slice that may be `nil` is `Option (List α)`
(`none` is the `nil` slice, `some []` the empty non-nil slice).  A method of a
collaborator whose body lives in another package (the modules' `SetConfig`,
the sync manager, the admin manager, the JSON decoder) is a field of an
environment structure: a function on an explicit collaborator state `σ`.
Every run records, in order, the collaborator calls it made.
-/

set_option autoImplicit false

namespace SpaceCloud

/-- A Go `error` value, carrying the text its `Error()` method returns. -/
structure GoError where
  msg : String
deriving DecidableEq, Repr

namespace server

/-- The sub-config types of package `config` that `LoadConfig` passes around.
Their declarations are outside the files at hand, so they are parameters. -/
structure ConfigTypes where
  Crud : Type
  Auth : Type
  Functions : Type
  FileStore : Type
  Eventing : Type
  Static : Type
  Admin : Type
  SSL : Type

/-- The fields of `config.Modules` read by `LoadConfig`. -/
structure Modules (T : ConfigTypes) where
  Crud : T.Crud
  Auth : T.Auth
  Functions : T.Functions
  FileStore : T.FileStore
  Eventing : T.Eventing

/-- The fields of `config.Project` read by `LoadConfig`.  An entry of the
project list is taken to be a project that is there: a `nil` entry, or one
without modules, is not represented. -/
structure Project (T : ConfigTypes) where
  ID : String
  Secret : String
  Modules : Modules T

/-- The root document `config.Config`.  `Projects = none` is the `nil` slice. -/
structure Config (T : ConfigTypes) where
  Projects : Option (List (Project T))
  SSL : T.SSL
  Admin : T.Admin
  Static : T.Static

/-- The modules a `Server` holds, in the order `LoadConfig` arms them. -/
inductive Module where
  | crud | auth | functions | user | file | eventing | realtime | static | graphql
deriving DecidableEq, Repr

/-- One `SetConfig` call on a module, with the arguments it was given. -/
inductive Call (T : ConfigTypes) where
  | crudSetConfig (crud : T.Crud)
  | authSetConfig (id secret : String) (crud : T.Crud) (fileStore : T.FileStore)
      (functions : T.Functions)
  | functionsSetConfig (id : String) (functions : T.Functions)
  | userSetConfig (auth : T.Auth)
  | fileSetConfig (fileStore : T.FileStore)
  | eventingSetConfig (id : String) (eventing : T.Eventing)
  | realtimeSetConfig (id : String) (crud : T.Crud)
  | staticSetConfig (static : T.Static)
  | graphqlSetConfig (id : String)

/-- The module a call is made on. -/
def Call.module {T : ConfigTypes} : Call T → Module
  | .crudSetConfig _ => .crud
  | .authSetConfig _ _ _ _ _ => .auth
  | .functionsSetConfig _ _ => .functions
  | .userSetConfig _ => .user
  | .fileSetConfig _ => .file
  | .eventingSetConfig _ _ => .eventing
  | .realtimeSetConfig _ _ => .realtime
  | .staticSetConfig _ => .static
  | .graphqlSetConfig _ => .graphql

/-- The `SetConfig` methods of the modules held by a `Server`, acting on the
modules' joint state `σ`.  Six of them return an `error`; the `SetConfig` of
`functions`, `user` and `graphql` return nothing. -/
structure Server (T : ConfigTypes) (σ : Type) where
  crud : T.Crud → σ → Option GoError × σ
  auth : String → String → T.Crud → T.FileStore → T.Functions → σ → Option GoError × σ
  functions : String → T.Functions → σ → σ
  user : T.Auth → σ → σ
  file : T.FileStore → σ → Option GoError × σ
  eventing : String → T.Eventing → σ → Option GoError × σ
  realtime : String → T.Crud → σ → Option GoError × σ
  static : T.Static → σ → Option GoError × σ
  graphql : String → σ → σ

/-- How a call of `LoadConfig` ends: it returns an `error` (possibly `nil`), or
the goroutine panics with "index out of range". -/
inductive Outcome where
  | returned (err : Option GoError)
  | indexOutOfRange
deriving DecidableEq, Repr

/-- What a call of `LoadConfig` did: how it ended, the modules' state it left,
and the `SetConfig` calls it made, oldest first. -/
structure Run (T : ConfigTypes) (σ : Type) where
  outcome : Outcome
  state : σ
  calls : List (Call T)

/-- `Server.LoadConfig`: configures each module to use the provided config. -/
def LoadConfig {T : ConfigTypes} {σ : Type} (s : Server T σ) (config : Config T) (st : σ) :
    Run T σ :=
  match config.Projects with
  | none => ⟨.returned none, st, []⟩
  | some projects =>
    match projects[0]? with
    | none => ⟨.indexOutOfRange, st, []⟩
    | some p =>
      let c1 := Call.crudSetConfig p.Modules.Crud
      let c2 := Call.authSetConfig p.ID p.Secret p.Modules.Crud p.Modules.FileStore
        p.Modules.Functions
      let c3 := Call.functionsSetConfig p.ID p.Modules.Functions
      let c4 := Call.userSetConfig p.Modules.Auth
      let c5 := Call.fileSetConfig p.Modules.FileStore
      let c6 := Call.eventingSetConfig p.ID p.Modules.Eventing
      let c7 := Call.realtimeSetConfig p.ID p.Modules.Crud
      let c8 := Call.staticSetConfig config.Static
      let c9 := Call.graphqlSetConfig p.ID
      match s.crud p.Modules.Crud st with
      | (some err, st1) => ⟨.returned (some err), st1, [c1]⟩
      | (none, st1) =>
      match s.auth p.ID p.Secret p.Modules.Crud p.Modules.FileStore p.Modules.Functions st1 with
      | (some err, st2) => ⟨.returned (some err), st2, [c1, c2]⟩
      | (none, st2) =>
      let st3 := s.functions p.ID p.Modules.Functions st2
      let st4 := s.user p.Modules.Auth st3
      match s.file p.Modules.FileStore st4 with
      | (some err, st5) => ⟨.returned (some err), st5, [c1, c2, c3, c4, c5]⟩
      | (none, st5) =>
      match s.eventing p.ID p.Modules.Eventing st5 with
      | (some err, st6) => ⟨.returned (some err), st6, [c1, c2, c3, c4, c5, c6]⟩
      | (none, st6) =>
      match s.realtime p.ID p.Modules.Crud st6 with
      | (some err, st7) => ⟨.returned (some err), st7, [c1, c2, c3, c4, c5, c6, c7]⟩
      | (none, st7) =>
      match s.static config.Static st7 with
      | (some err, st8) => ⟨.returned (some err), st8, [c1, c2, c3, c4, c5, c6, c7, c8]⟩
      | (none, st8) =>
      let st9 := s.graphql p.ID st8
      ⟨.returned none, st9, [c1, c2, c3, c4, c5, c6, c7, c8, c9]⟩

/-! ### The apply order, stated on its own -/

/-- The apply order of the specification: data access, auth rules, functions,
user management, file store, eventing, realtime, static hosting, and the
composition layer last. -/
def applyOrder : List Module :=
  [.crud, .auth, .functions, .user, .file, .eventing, .realtime, .static, .graphql]

/-- The call the new config asks of each module: the arguments are those of the
first project `p`, and the static settings of the root document. -/
def configCalls {T : ConfigTypes} (config : Config T) (p : Project T) : List (Call T) :=
  [ .crudSetConfig p.Modules.Crud,
    .authSetConfig p.ID p.Secret p.Modules.Crud p.Modules.FileStore p.Modules.Functions,
    .functionsSetConfig p.ID p.Modules.Functions,
    .userSetConfig p.Modules.Auth,
    .fileSetConfig p.Modules.FileStore,
    .eventingSetConfig p.ID p.Modules.Eventing,
    .realtimeSetConfig p.ID p.Modules.Crud,
    .staticSetConfig config.Static,
    .graphqlSetConfig p.ID ]

/-- Make one call on the module it names. -/
def Server.perform {T : ConfigTypes} {σ : Type} (s : Server T σ) :
    Call T → σ → Option GoError × σ
  | .crudSetConfig c, st => s.crud c st
  | .authSetConfig id secret c fs fn, st => s.auth id secret c fs fn st
  | .functionsSetConfig id fn, st => (none, s.functions id fn st)
  | .userSetConfig a, st => (none, s.user a st)
  | .fileSetConfig fs, st => s.file fs st
  | .eventingSetConfig id e, st => s.eventing id e st
  | .realtimeSetConfig id c, st => s.realtime id c st
  | .staticSetConfig x, st => s.static x st
  | .graphqlSetConfig id, st => (none, s.graphql id st)

/-- The modules' state once every call of `calls` has been made, in turn. -/
def Server.stateAfter {T : ConfigTypes} {σ : Type} (s : Server T σ) :
    List (Call T) → σ → σ
  | [], st => st
  | c :: cs, st => Server.stateAfter s cs (s.perform c st).2

/-- The answer of the `j`-th call of `calls`, made after the `j` calls before
it: `some none` when the module accepts, `some (some e)` when it rejects with
`e`, and `none` when `calls` has no `j`-th call. -/
def Server.answerAt {T : ConfigTypes} {σ : Type} (s : Server T σ) (calls : List (Call T))
    (st : σ) (j : Nat) : Option (Option GoError) :=
  (calls[j]?).map (fun c => (s.perform c (s.stateAfter (calls.take j) st)).1)

/-- Make the calls of a list in turn, stopping after the first one that is
rejected. -/
def Server.applyAll {T : ConfigTypes} {σ : Type} (s : Server T σ) :
    List (Call T) → σ → Run T σ
  | [], st => ⟨.returned none, st, []⟩
  | c :: cs, st =>
    match s.perform c st with
    | (some err, st1) => ⟨.returned (some err), st1, [c]⟩
    | (none, st1) =>
      let r := Server.applyAll s cs st1
      ⟨r.outcome, r.state, c :: r.calls⟩

end server

namespace handlers

/-- The payload types the handlers move between the request, the sync manager
and the response.  Their declarations are outside the files at hand, so they
are parameters: `config.FileStore`, `config.FileRule`, and the values
`GetFileStoreConfig` and `GetFileStoreRules` return. -/
structure Payloads where
  FileStore : Type
  FileRule : Type
  StoreConfig : Type
  Rules : Type

/-- The parts of an `*http.Request` the handlers read: the headers, the body,
the path variables `mux.Vars(r)`, and the `key=value` pairs of the URL's query
string in the order they are written. -/
structure Request where
  Header : List (String × String)
  Body : String
  Vars : List (String × String)
  RawQuery : List (String × String)

/-- Indexing a Go `map[string]string`: a missing key gives the empty string. -/
def mapIndex (m : List (String × String)) (key : String) : String :=
  (m.lookup key).getD ""

/-- The type `url.Values`, a `map[string][]string`. -/
abbrev Values := List (String × List String)

/-- The statement `m[key] = append(m[key], value)` of `url.ParseQuery`. -/
def Values.add : Values → String → String → Values
  | [], key, value => [(key, [value])]
  | (k, vs) :: rest, key, value =>
    if k = key then (k, vs ++ [value]) :: rest
    else (k, vs) :: Values.add rest key value

/-- The method `r.URL.Query()` of `net/url`: every pair of the query string
appends its value under its key. -/
def Request.Query (r : Request) : Values :=
  r.RawQuery.foldl (fun m kv => Values.add m kv.1 kv.2) []

/-- A `context.WithTimeout(r.Context(), n*time.Second)`, up to the request's
own context: the timeout in seconds. -/
structure Context where
  timeoutSeconds : Nat
deriving DecidableEq, Repr

/-- One operation invoked on the sync manager or on the file module. -/
inductive Call (P : Payloads) where
  | SetFileStore (ctx : Context) (projectID : String) (value : P.FileStore)
  | GetFileStoreConfig (ctx : Context) (projectID : String)
  | GetState (ctx : Context)
  | SetFileRule (ctx : Context) (projectID ruleName : String) (value : P.FileRule)
  | GetFileStoreRules (ctx : Context) (projectID ruleID : String)
  | SetDeleteFileRule (ctx : Context) (projectID ruleName : String)

/-- The collaborators of the handlers.  `σ` is the state behind the sync
manager and the file module (the stored config).  `GetTokenFromHeader` is
`utils.GetTokenFromHeader`, `IsTokenValid` the admin manager's check, and the
two decoders are `json.NewDecoder(r.Body).Decode(value)` on a fresh
`config.FileStore` or `config.FileRule`: they give the value as the decoder
left it, and the decoder's error. -/
structure Env (P : Payloads) (σ : Type) where
  GetTokenFromHeader : Request → String
  IsTokenValid : String → Option GoError
  DecodeFileStore : String → P.FileStore × Option GoError
  DecodeFileRule : String → P.FileRule × Option GoError
  SetFileStore : Context → String → P.FileStore → σ → Option GoError × σ
  GetFileStoreConfig : Context → String → σ → (P.StoreConfig × Option GoError) × σ
  GetState : Context → σ → Option GoError × σ
  SetFileRule : Context → String → String → P.FileRule → σ → Option GoError × σ
  GetFileStoreRules : Context → String → String → σ → (P.Rules × Option GoError) × σ
  SetDeleteFileRule : Context → String → String → σ → Option GoError × σ

/-- The value put in the `Result` field of a `model.Response`. -/
inductive Result (P : Payloads) where
  | bool (b : Bool)
  | storeConfig (c : P.StoreConfig)
  | rules (rs : P.Rules)

/-- The value handed to `json.NewEncoder(w).Encode`. -/
inductive Body (P : Payloads) where
  /-- The map `map[string]string{"error": msg}`. -/
  | errorMap (msg : String)
  /-- The map `map[string]interface{}{}`. -/
  | emptyMap
  /-- The struct `model.Response{Result: result, Error: error}`. -/
  | response (result : Result P) (error : String)

/-- What a handler wrote on the `http.ResponseWriter`: the `Content-Type` it
set (if it set one), the status code, and the encoded value. -/
structure Response (P : Payloads) where
  contentType : Option String
  status : Nat
  body : Body P

/-- The constant `http.StatusOK`. -/
def StatusOK : Nat := 200
/-- The constant `http.StatusUnauthorized`. -/
def StatusUnauthorized : Nat := 401
/-- The constant `http.StatusInternalServerError`. -/
def StatusInternalServerError : Nat := 500

/-- How a handler ends: it wrote a response, or it panicked with "index out of
range" before writing one. -/
inductive Outcome (P : Payloads) where
  | wrote (resp : Response P)
  | indexOutOfRange

/-- What one invocation of a handler did: how it ended, the collaborators'
state it left, the operations it invoked (oldest first), and whether it closed
the request body. -/
structure Run (P : Payloads) (σ : Type) where
  outcome : Outcome P
  state : σ
  calls : List (Call P)
  bodyClosed : Bool

/-- The 401 response every handler writes when the token is rejected. -/
def unauthorized {P : Payloads} (err : GoError) : Response P :=
  ⟨some "application/json", StatusUnauthorized, .errorMap err.msg⟩

/-- `HandleSetFileStore`: set the file storage config. -/
def HandleSetFileStore {P : Payloads} {σ : Type} (env : Env P σ) (r : Request) (st : σ) :
    Run P σ :=
  let token := env.GetTokenFromHeader r
  let value := (env.DecodeFileStore r.Body).1
  match env.IsTokenValid token with
  | some err => ⟨.wrote (unauthorized err), st, [], true⟩
  | none =>
    let ctx : Context := ⟨10⟩
    let projectID := mapIndex r.Vars "project"
    match env.SetFileStore ctx projectID value st with
    | (some err, st1) =>
      ⟨.wrote ⟨some "application/json", StatusInternalServerError, .errorMap err.msg⟩, st1,
        [.SetFileStore ctx projectID value], true⟩
    | (none, st1) =>
      ⟨.wrote ⟨some "application/json", StatusOK, .emptyMap⟩, st1,
        [.SetFileStore ctx projectID value], true⟩

/-- `HandleGetFileStore`: returns the file store config of a project. -/
def HandleGetFileStore {P : Payloads} {σ : Type} (env : Env P σ) (r : Request) (st : σ) :
    Run P σ :=
  let ctx : Context := ⟨5⟩
  let token := env.GetTokenFromHeader r
  match env.IsTokenValid token with
  | some err => ⟨.wrote (unauthorized err), st, [], false⟩
  | none =>
    let projectID := mapIndex r.Vars "project"
    match env.GetFileStoreConfig ctx projectID st with
    | ((_, some err), st1) =>
      ⟨.wrote ⟨some "application/json", StatusInternalServerError, .errorMap err.msg⟩, st1,
        [.GetFileStoreConfig ctx projectID], false⟩
    | ((fileConfig, none), st1) =>
      ⟨.wrote ⟨some "application/json", StatusOK, .response (.storeConfig fileConfig) ""⟩, st1,
        [.GetFileStoreConfig ctx projectID], false⟩

/-- `HandleGetFileState`: gets the state of the file module. -/
def HandleGetFileState {P : Payloads} {σ : Type} (env : Env P σ) (r : Request) (st : σ) :
    Run P σ :=
  let token := env.GetTokenFromHeader r
  let ctx : Context := ⟨5⟩
  match env.IsTokenValid token with
  | some err => ⟨.wrote (unauthorized err), st, [], true⟩
  | none =>
    match env.GetState ctx st with
    | (some err, st1) =>
      ⟨.wrote ⟨some "application/json", StatusOK, .response (.bool false) err.msg⟩, st1,
        [.GetState ctx], true⟩
    | (none, st1) =>
      ⟨.wrote ⟨some "application/json", StatusOK, .response (.bool true) ""⟩, st1,
        [.GetState ctx], true⟩

/-- `HandleSetFileRule`: sets a file rule. -/
def HandleSetFileRule {P : Payloads} {σ : Type} (env : Env P σ) (r : Request) (st : σ) :
    Run P σ :=
  let token := env.GetTokenFromHeader r
  let value := (env.DecodeFileRule r.Body).1
  match env.IsTokenValid token with
  | some err => ⟨.wrote (unauthorized err), st, [], true⟩
  | none =>
    let ctx : Context := ⟨10⟩
    let projectID := mapIndex r.Vars "project"
    let ruleName := mapIndex r.Vars "id"
    match env.SetFileRule ctx projectID ruleName value st with
    | (some err, st1) =>
      ⟨.wrote ⟨some "application/json", StatusInternalServerError, .errorMap err.msg⟩, st1,
        [.SetFileRule ctx projectID ruleName value], true⟩
    | (none, st1) =>
      ⟨.wrote ⟨some "application/json", StatusOK, .emptyMap⟩, st1,
        [.SetFileRule ctx projectID ruleName value], true⟩

/-- `HandleGetFileRule`: returns the file rules of a project.  The error
response is written without a `Content-Type` of the handler's own. -/
def HandleGetFileRule {P : Payloads} {σ : Type} (env : Env P σ) (r : Request) (st : σ) :
    Run P σ :=
  let token := env.GetTokenFromHeader r
  match env.IsTokenValid token with
  | some err => ⟨.wrote (unauthorized err), st, [], false⟩
  | none =>
    let ctx : Context := ⟨10⟩
    let projectID := mapIndex r.Vars "project"
    -- `ruleID := ""; if exists { ruleID = ruleName[0] }`; `none` is the panic
    let ruleID : Option String :=
      match r.Query.lookup "id" with
      | none => some ""
      | some ruleName => ruleName[0]?
    match ruleID with
    | none => ⟨.indexOutOfRange, st, [], false⟩
    | some ruleID =>
      match env.GetFileStoreRules ctx projectID ruleID st with
      | ((_, some err), st1) =>
        ⟨.wrote ⟨none, StatusInternalServerError, .errorMap err.msg⟩, st1,
          [.GetFileStoreRules ctx projectID ruleID], false⟩
      | ((fileRules, none), st1) =>
        ⟨.wrote ⟨some "application/json", StatusOK, .response (.rules fileRules) ""⟩, st1,
          [.GetFileStoreRules ctx projectID ruleID], false⟩

/-- `HandleDeleteFileRule`: deletes a file rule.  The body is decoded into a
fresh `config.FileRule` that is not used afterwards. -/
def HandleDeleteFileRule {P : Payloads} {σ : Type} (env : Env P σ) (r : Request) (st : σ) :
    Run P σ :=
  let token := env.GetTokenFromHeader r
  let _value := (env.DecodeFileRule r.Body).1
  match env.IsTokenValid token with
  | some err => ⟨.wrote (unauthorized err), st, [], true⟩
  | none =>
    let ctx : Context := ⟨10⟩
    let projectID := mapIndex r.Vars "project"
    let ruleName := mapIndex r.Vars "id"
    match env.SetDeleteFileRule ctx projectID ruleName st with
    | (some err, st1) =>
      ⟨.wrote ⟨some "application/json", StatusInternalServerError, .errorMap err.msg⟩, st1,
        [.SetDeleteFileRule ctx projectID ruleName], true⟩
    | (none, st1) =>
      ⟨.wrote ⟨some "application/json", StatusOK, .emptyMap⟩, st1,
        [.SetDeleteFileRule ctx projectID ruleName], true⟩

end handlers

/-! ## Concrete instances -/

namespace server

/-- Sub-configs that are plain numbers; `0` stands for a sub-config a module
rejects. -/
@[reducible] def natTypes : ConfigTypes := ⟨Nat, Nat, Nat, Nat, Nat, Nat, Nat, Nat⟩

/-- A server whose state lists the modules armed so far, and where a module
that can reject does so exactly when its sub-config is `0`. -/
def exampleServer : Server natTypes (List Module) where
  crud := fun (c : Nat) st =>
    if c = 0 then (some ⟨"crud: bad config"⟩, st) else (none, st ++ [.crud])
  auth := fun _ _ (c : Nat) _ _ st =>
    if c = 0 then (some ⟨"auth: bad config"⟩, st) else (none, st ++ [.auth])
  functions := fun _ _ st => st ++ [.functions]
  user := fun _ st => st ++ [.user]
  file := fun (fs : Nat) st =>
    if fs = 0 then (some ⟨"file: bad config"⟩, st) else (none, st ++ [.file])
  eventing := fun _ (e : Nat) st =>
    if e = 0 then (some ⟨"eventing: bad config"⟩, st) else (none, st ++ [.eventing])
  realtime := fun _ (c : Nat) st =>
    if c = 0 then (some ⟨"realtime: bad config"⟩, st) else (none, st ++ [.realtime])
  static := fun (x : Nat) st =>
    if x = 0 then (some ⟨"static: bad config"⟩, st) else (none, st ++ [.static])
  graphql := fun _ st => st ++ [.graphql]

/-- A project every module accepts. -/
def goodProject : Project natTypes := ⟨"p1", "secret", ⟨1, 1, 1, 1, 1⟩⟩

/-- A project whose file-store sub-config is rejected. -/
def badFileProject : Project natTypes := ⟨"p1", "secret", ⟨1, 1, 1, 0, 1⟩⟩

/-- Another project, used as a second entry of the project list. -/
def otherProject : Project natTypes := ⟨"p2", "other", ⟨0, 0, 0, 0, 0⟩⟩

/-- A config with one project, accepted by every module. -/
def goodConfig : Config natTypes := ⟨some [goodProject], 1, 1, 1⟩

/-- A config whose first project is rejected by the file-store module. -/
def badFileConfig : Config natTypes := ⟨some [badFileProject], 1, 1, 1⟩

/-- A config with the first project of `goodConfig`, and differing in the
remaining projects, the admin and the ssl settings. -/
def goodConfigMore : Config natTypes := ⟨some [goodProject, otherProject], 7, 9, 1⟩

end server

namespace handlers

/-- The outcome the specification's table gives a mutating operation whose
sync-manager call was `call` and answered `answer`: the call is the only one
made and its state is kept; the response is 200 with `{}` exactly when the
answer carries no error, 500 with the error's message otherwise, and never
another status. -/
def MutationReported {P : Payloads} {σ : Type} (run : Run P σ) (call : Call P)
    (answer : Option GoError × σ) : Prop :=
  run.calls = [call]
    ∧ run.state = answer.2
    ∧ (run.outcome = .wrote ⟨some "application/json", 200, .emptyMap⟩ ↔ answer.1 = none)
    ∧ (∀ e, answer.1 = some e →
        run.outcome = .wrote ⟨some "application/json", 500, .errorMap e.msg⟩)
    ∧ (∃ resp, run.outcome = .wrote resp ∧ (resp.status = 200 ∨ resp.status = 500))

/-- The values a query string gives a key, in the order written. -/
def valuesOf (pairs : List (String × String)) (key : String) : List String :=
  (pairs.filter (fun kv => kv.1 = key)).map (fun kv => kv.2)

/-- Payloads that are plain numbers; the rules of a project are a list of
named numbers. -/
@[reducible] def natPayloads : Payloads := ⟨Nat, Nat, Nat, List (String × Nat)⟩

/-- A small sync manager over one project `p1`.  Its state is the stored
file-store config and the stored rules.  The decoders read `"1"` and `"2"` and
fail on every other body, leaving the zero value. -/
def exampleEnv : Env natPayloads (Nat × List (String × Nat)) where
  GetTokenFromHeader := fun r => mapIndex r.Header "Authorization"
  IsTokenValid := fun t => if t = "admin" then none else some ⟨"invalid token"⟩
  DecodeFileStore := fun b =>
    if b = "1" then (1, none) else if b = "2" then (2, none)
    else (0, some ⟨"invalid character"⟩)
  DecodeFileRule := fun b =>
    if b = "1" then (1, none) else if b = "2" then (2, none)
    else (0, some ⟨"invalid character"⟩)
  SetFileStore := fun _ project (v : Nat) st =>
    if project = "p1" then (none, (v, st.2)) else (some ⟨"project not found"⟩, st)
  GetFileStoreConfig := fun _ project st =>
    if project = "p1" then ((st.1, none), st) else ((0, some ⟨"project not found"⟩), st)
  GetState := fun _ st =>
    if st.1 = 0 then (some ⟨"file store not configured"⟩, st) else (none, st)
  SetFileRule := fun _ project name (v : Nat) st =>
    if project = "p1" then (none, (st.1, (name, v) :: st.2.filter (fun x => x.1 ≠ name)))
    else (some ⟨"project not found"⟩, st)
  GetFileStoreRules := fun _ project id st =>
    if project = "p1" then
      ((if id = "" then st.2 else st.2.filter (fun x => x.1 = id), none), st)
    else (([], some ⟨"project not found"⟩), st)
  SetDeleteFileRule := fun _ project name st =>
    if project = "p1" then (none, (st.1, st.2.filter (fun x => x.1 ≠ name)))
    else (some ⟨"project not found"⟩, st)

/-- A request of the administrator on rule `r1` of project `p1`, with a body
the decoders read. -/
def adminRequest : Request :=
  ⟨[("Authorization", "admin")], "1", [("project", "p1"), ("id", "r1")], [("id", "r1")]⟩

/-- The request `adminRequest` with a body that is not JSON. -/
def malformedRequest : Request :=
  ⟨[("Authorization", "admin")], "not json", [("project", "p1"), ("id", "r1")], [("id", "r1")]⟩

/-- The request `adminRequest` with a token the admin manager rejects. -/
def strangerRequest : Request :=
  ⟨[("Authorization", "guess")], "1", [("project", "p1"), ("id", "r1")], [("id", "r1")]⟩

/-- A stored config: file store `1`, and two rules. -/
def exampleState : Nat × List (String × Nat) := (1, [("r1", 5), ("r2", 6)])

end handlers

/-! ## Properties of `LoadConfig` -/

namespace server

variable {T : ConfigTypes} {σ : Type}

theorem answerAt_zero (s : Server T σ) (c : Call T) (cs : List (Call T)) (st : σ) :
    s.answerAt (c :: cs) st 0 = some (s.perform c st).1 := by
  simp [Server.answerAt, Server.stateAfter]

theorem answerAt_succ (s : Server T σ) (c : Call T) (cs : List (Call T)) (st : σ) (j : Nat) :
    s.answerAt (c :: cs) st (j + 1) = s.answerAt cs (s.perform c st).2 j := by
  simp [Server.answerAt, Server.stateAfter]

/-- When every call of the list is accepted, all are made, in order. -/
theorem applyAll_of_accept (s : Server T σ) (calls : List (Call T)) (st : σ)
    (h : ∀ j < calls.length, s.answerAt calls st j = some none) :
    s.applyAll calls st = ⟨.returned none, s.stateAfter calls st, calls⟩ := by
  induction calls generalizing st with
  | nil => rfl
  | cons c cs ih =>
    have h0 := h 0 (by simp)
    rw [answerAt_zero] at h0
    have hrest : ∀ j < cs.length, s.answerAt cs (s.perform c st).2 j = some none := by
      intro j hj
      have := h (j + 1) (by simpa using hj)
      rwa [answerAt_succ] at this
    have hc : s.perform c st = (none, (s.perform c st).2) := by
      rcases hx : s.perform c st with ⟨a, b⟩
      rw [hx] at h0
      simp at h0
      simp [h0]
    simp only [Server.applyAll, Server.stateAfter]
    rw [hc]
    simp [ih _ hrest]

/-- When the first `k` calls are accepted and the next one is rejected, the
calls made are exactly the first `k + 1`. -/
theorem applyAll_of_reject (s : Server T σ) (calls : List (Call T)) (st : σ) (k : Nat)
    (e : GoError)
    (hprev : ∀ j < k, s.answerAt calls st j = some none)
    (hk : s.answerAt calls st k = some (some e)) :
    s.applyAll calls st =
      ⟨.returned (some e), s.stateAfter (calls.take (k + 1)) st, calls.take (k + 1)⟩ := by
  induction calls generalizing st k with
  | nil => simp [Server.answerAt] at hk
  | cons c cs ih =>
    cases k with
    | zero =>
      rw [answerAt_zero] at hk
      rcases hx : s.perform c st with ⟨a, b⟩
      rw [hx] at hk
      simp at hk
      subst hk
      simp [Server.applyAll, Server.stateAfter, hx]
    | succ k =>
      have h0 := hprev 0 (by simp)
      rw [answerAt_zero] at h0
      rw [answerAt_succ] at hk
      have hrest : ∀ j < k, s.answerAt cs (s.perform c st).2 j = some none := by
        intro j hj
        have := hprev (j + 1) (by omega)
        rwa [answerAt_succ] at this
      rcases hx : s.perform c st with ⟨a, b⟩
      rw [hx] at h0 hk hrest
      simp at h0
      subst h0
      simp [Server.applyAll, Server.stateAfter, hx, ih _ _ hrest hk]

/-- On a config with a first project, `LoadConfig` makes the calls of
`configCalls` in turn and stops after the first rejection. -/
theorem LoadConfig_eq_applyAll (s : Server T σ) (config : Config T) (st : σ)
    (p : Project T) (rest : List (Project T)) (hp : config.Projects = some (p :: rest)) :
    LoadConfig s config st = s.applyAll (configCalls config p) st := by
  simp only [LoadConfig, hp, List.getElem?_cons_zero, configCalls, Server.applyAll,
    Server.perform]
  rcases h1 : s.crud p.Modules.Crud st with ⟨_ | e1, st1⟩ <;> simp only []
  rcases h2 : s.auth p.ID p.Secret p.Modules.Crud p.Modules.FileStore p.Modules.Functions st1
    with ⟨_ | e2, st2⟩ <;> simp only []
  rcases h5 : s.file p.Modules.FileStore (s.user p.Modules.Auth
    (s.functions p.ID p.Modules.Functions st2)) with ⟨_ | e5, st5⟩ <;> simp only []
  rcases h6 : s.eventing p.ID p.Modules.Eventing st5 with ⟨_ | e6, st6⟩ <;> simp only []
  rcases h7 : s.realtime p.ID p.Modules.Crud st6 with ⟨_ | e7, st7⟩ <;> simp only []
  rcases h8 : s.static config.Static st7 with ⟨_ | e8, st8⟩ <;> simp only []

/-- On the `nil` project list `LoadConfig` calls no module and returns `nil`. -/
theorem LoadConfig_nil_projects (s : Server T σ) (config : Config T) (st : σ)
    (h : config.Projects = none) :
    LoadConfig s config st = ⟨.returned none, st, []⟩ := by
  simp [LoadConfig, h]

/-- C1. On a config whose project list is non-empty and whose first project
every module accepts (each `SetConfig`, called after the ones before it,
returns no error), `LoadConfig` calls `SetConfig` exactly once on each module,
in the order crud, auth, functions, user management, file store, eventing,
realtime, static, graphql, with the arguments taken from the first project and
the static settings, and returns `nil`. -/
theorem LoadConfig_applies_in_fixed_order (s : Server T σ) (config : Config T) (st : σ)
    (p : Project T) (rest : List (Project T))
    (hp : config.Projects = some (p :: rest))
    (haccept : ∀ j < 9, s.answerAt (configCalls config p) st j = some none) :
    (LoadConfig s config st).calls.map Call.module =
        [.crud, .auth, .functions, .user, .file, .eventing, .realtime, .static, .graphql]
      ∧ (LoadConfig s config st).calls = configCalls config p
      ∧ (∀ m : Module, ((LoadConfig s config st).calls.map Call.module).count m = 1)
      ∧ (LoadConfig s config st).outcome = .returned none
      ∧ (LoadConfig s config st).state = s.stateAfter (configCalls config p) st := by
  have hrun := LoadConfig_eq_applyAll s config st p rest hp
  rw [applyAll_of_accept s (configCalls config p) st (by simpa [configCalls] using haccept)]
    at hrun
  rw [hrun]
  refine ⟨by simp [configCalls, Call.module], rfl, ?_, rfl, rfl⟩
  intro m
  cases m <;> simp [configCalls, Call.module]

/-- The hypotheses of C1 hold of `goodConfig` on `exampleServer`. -/
theorem LoadConfig_applies_in_fixed_order_witness :
    (LoadConfig exampleServer goodConfig []).calls.map Call.module =
        [.crud, .auth, .functions, .user, .file, .eventing, .realtime, .static, .graphql]
      ∧ (LoadConfig exampleServer goodConfig []).calls = configCalls goodConfig goodProject
      ∧ (∀ m : Module,
          ((LoadConfig exampleServer goodConfig []).calls.map Call.module).count m = 1)
      ∧ (LoadConfig exampleServer goodConfig []).outcome = .returned none
      ∧ (LoadConfig exampleServer goodConfig []).state =
          exampleServer.stateAfter (configCalls goodConfig goodProject) [] :=
  LoadConfig_applies_in_fixed_order exampleServer goodConfig [] goodProject [] rfl
    (by decide)

/-- C2. On a config with a non-empty project list, let `k` be a position of the
apply order such that the `k` modules before it accept and the module at `k`
rejects with error `e`.  Then that module is one of crud, auth, file store,
eventing, realtime, static; `LoadConfig` has called `SetConfig` with the new
config on the modules before `k` and on `k` itself, once each and in order; it
makes no call on a module after `k`, and no second (rollback) call on a module
before `k`; and it returns the error `e`. -/
theorem LoadConfig_aborts_at_first_rejection (s : Server T σ) (config : Config T) (st : σ)
    (p : Project T) (rest : List (Project T)) (k : Nat) (e : GoError)
    (hp : config.Projects = some (p :: rest))
    (hprev : ∀ j < k, s.answerAt (configCalls config p) st j = some none)
    (hk : s.answerAt (configCalls config p) st k = some (some e)) :
    applyOrder[k]? ∈ [some Module.crud, some .auth, some .file, some .eventing,
        some .realtime, some .static]
      ∧ (LoadConfig s config st).calls = (configCalls config p).take (k + 1)
      ∧ (LoadConfig s config st).calls.map Call.module = applyOrder.take (k + 1)
      ∧ (∀ m ∈ applyOrder.drop (k + 1), m ∉ (LoadConfig s config st).calls.map Call.module)
      ∧ (∀ m ∈ applyOrder.take (k + 1),
          ((LoadConfig s config st).calls.map Call.module).count m = 1)
      ∧ (LoadConfig s config st).outcome = .returned (some e)
      ∧ (LoadConfig s config st).state =
          s.stateAfter ((configCalls config p).take (k + 1)) st := by
  have hrun := LoadConfig_eq_applyAll s config st p rest hp
  rw [applyAll_of_reject s (configCalls config p) st k e hprev hk] at hrun
  rw [hrun]
  have hlt : k < 9 := by
    by_contra hge
    have : (configCalls config p)[k]? = none := by
      apply List.getElem?_eq_none
      simp only [configCalls, List.length_cons, List.length_nil]
      omega
    simp [Server.answerAt, this] at hk
  refine ⟨?_, rfl, ?_, ?_, ?_, rfl, rfl⟩
  · interval_cases k <;>
      first
        | (simp [applyOrder]; done)
        | (simp [Server.answerAt, configCalls, Server.perform] at hk)
  · interval_cases k <;> simp [configCalls, applyOrder, Call.module]
  · interval_cases k <;> simp [configCalls, applyOrder, Call.module]
  · interval_cases k <;> simp [configCalls, applyOrder, Call.module]

/-- The hypotheses of C2 hold of `badFileConfig` on `exampleServer`, at the
position of the file-store module. -/
theorem LoadConfig_aborts_at_first_rejection_witness :
    (LoadConfig exampleServer badFileConfig []).calls.map Call.module =
        [.crud, .auth, .functions, .user, .file]
      ∧ (LoadConfig exampleServer badFileConfig []).outcome =
          .returned (some ⟨"file: bad config"⟩)
      ∧ (LoadConfig exampleServer badFileConfig []).state =
          [.crud, .auth, .functions, .user] :=
  have h := LoadConfig_aborts_at_first_rejection exampleServer badFileConfig []
    badFileProject [] 4 ⟨"file: bad config"⟩ rfl (by decide) (by decide)
  ⟨h.2.2.1, h.2.2.2.2.2.1, h.2.2.2.2.2.2⟩

/-- C9. Two configs with non-empty project lists that have the same first
project and the same static settings give the same run of `LoadConfig`: the
same `SetConfig` calls with the same arguments, the same returned error and the
same final state, whatever their other projects, admin and ssl fields. -/
theorem LoadConfig_reads_first_project_only (s : Server T σ) (c₁ c₂ : Config T) (st : σ)
    (p : Project T) (rest₁ rest₂ : List (Project T))
    (h₁ : c₁.Projects = some (p :: rest₁)) (h₂ : c₂.Projects = some (p :: rest₂))
    (hstatic : c₁.Static = c₂.Static) :
    LoadConfig s c₁ st = LoadConfig s c₂ st := by
  rw [LoadConfig_eq_applyAll s c₁ st p rest₁ h₁, LoadConfig_eq_applyAll s c₂ st p rest₂ h₂]
  simp [configCalls, hstatic]

/-- The hypotheses of C9 hold of `goodConfig` and `goodConfigMore`. -/
theorem LoadConfig_reads_first_project_only_witness :
    goodConfig.SSL ≠ goodConfigMore.SSL ∧ goodConfig.Admin ≠ goodConfigMore.Admin
      ∧ goodConfig.Projects ≠ goodConfigMore.Projects
      ∧ LoadConfig exampleServer goodConfig [] = LoadConfig exampleServer goodConfigMore [] :=
  ⟨by decide, by decide, by simp [goodConfig, goodConfigMore],
    LoadConfig_reads_first_project_only exampleServer goodConfig goodConfigMore []
      goodProject [] [otherProject] rfl rfl rfl⟩

/-- C10, at the failing input.  On a config whose project list is present but
empty, the guard `config.Projects != nil` passes and `config.Projects[0]` is out
of range: `LoadConfig` does not return, and no module is called. -/
theorem LoadConfig_empty_projects_out_of_range (s : Server T σ) (st : σ)
    (ssl : T.SSL) (admin : T.Admin) (static : T.Static) :
    LoadConfig s ⟨some [], ssl, admin, static⟩ st = ⟨.indexOutOfRange, st, []⟩ := by
  simp [LoadConfig]

end server

/-! ## Properties of the file-store handlers -/

namespace handlers

variable {P : Payloads} {σ : Type}

/-- Looking a key up after `m[k] = append(m[k], v)`. -/
theorem lookup_add (m : Values) (k v key : String) :
    List.lookup key (Values.add m k v) =
      if k = key then some ((List.lookup key m).getD [] ++ [v]) else List.lookup key m := by
  induction m with
  | nil =>
    by_cases h : k = key
    · simp [Values.add, List.lookup, h]
    · have h2 : (key == k) = false := by simpa using fun h3 => h h3.symm
      simp [Values.add, List.lookup, h, h2]
  | cons a rest ih =>
    obtain ⟨k0, vs⟩ := a
    by_cases h0 : k0 = k
    · subst h0
      by_cases h : k0 = key
      · subst h
        simp [Values.add, List.lookup]
      · have h2 : (key == k0) = false := by simpa using fun h3 => h h3.symm
        simp [Values.add, List.lookup, h, h2]
    · simp only [Values.add, h0, if_false]
      by_cases h1 : key = k0
      · subst h1
        have h3 : ¬ k = key := fun h4 => h0 h4.symm
        simp [List.lookup, h3]
      · have h2 : (key == k0) = false := by simpa using h1
        simp [List.lookup, h2, ih]

/-- Looking a key up in the map `url.ParseQuery` builds from `pairs` on top
of `m`. -/
theorem lookup_foldl_add (pairs : List (String × String)) (m : Values) (key : String) :
    List.lookup key (pairs.foldl (fun m kv => Values.add m kv.1 kv.2) m) =
      if (List.lookup key m).isNone ∧ valuesOf pairs key = [] then none
      else some ((List.lookup key m).getD [] ++ valuesOf pairs key) := by
  induction pairs generalizing m with
  | nil =>
    have hv : valuesOf [] key = [] := rfl
    rw [hv]
    cases h : List.lookup key m <;> simp [h]
  | cons kv rest ih =>
    obtain ⟨k, v⟩ := kv
    simp only [List.foldl_cons]
    rw [ih, lookup_add]
    by_cases hk : k = key
    · subst hk
      have hv : valuesOf ((k, v) :: rest) k = v :: valuesOf rest k := by
        simp [valuesOf, List.filter_cons]
      rw [hv]
      simp
    · have hv : valuesOf ((k, v) :: rest) key = valuesOf rest key := by
        simp [valuesOf, List.filter_cons, hk]
      rw [hv, if_neg hk]

/-- A key is in `r.URL.Query()` exactly when the query string mentions it, and
then it holds the key's values, of which there is at least one. -/
theorem Query_lookup (r : Request) (key : String) :
    List.lookup key r.Query =
      if valuesOf r.RawQuery key = [] then none else some (valuesOf r.RawQuery key) := by
  simp [Request.Query, lookup_foldl_add]

/-- The first value of a key is the value of the first pair that mentions it. -/
theorem valuesOf_head (pairs : List (String × String)) (key : String) :
    (valuesOf pairs key)[0]? = List.lookup key pairs := by
  induction pairs with
  | nil => simp [valuesOf]
  | cons kv rest ih =>
    obtain ⟨k, v⟩ := kv
    by_cases hk : k = key
    · subst hk
      simp [valuesOf, List.lookup]
    · have h2 : (key == k) = false := by simpa using fun h3 => hk h3.symm
      have ih2 : (valuesOf rest key)[0]? = List.lookup key rest := ih
      simpa [valuesOf, List.lookup, hk, h2] using ih2

/-- The rule id `HandleGetFileRule` computes: reading `ruleName[0]` never
fails, and gives the first `id` of the query string, or `""` without one. -/
theorem ruleID_eq (r : Request) :
    (match List.lookup "id" r.Query with
      | none => some ""
      | some ruleName => ruleName[0]?) = some ((List.lookup "id" r.RawQuery).getD "") := by
  rw [Query_lookup]
  by_cases h : valuesOf r.RawQuery "id" = []
  · have h0 := valuesOf_head r.RawQuery "id"
    rw [h] at h0
    simp at h0
    simp [h, ← h0]
  · have h0 := valuesOf_head r.RawQuery "id"
    obtain ⟨v, vs, hv⟩ := List.exists_cons_of_ne_nil h
    rw [hv] at h0
    simp at h0
    simp [hv, ← h0]

/-- C3. When the admin manager rejects the request's token with error `e`,
each of the six file-store handlers writes status 401 with the JSON body
`{"error": e.Error()}`, invokes no operation of the sync manager or of the file
module, and leaves the stored config as it was. -/
theorem unauthorized_short_circuit (env : Env P σ) (r : Request) (st : σ) (e : GoError)
    (hreject : env.IsTokenValid (env.GetTokenFromHeader r) = some e) :
    ∀ H ∈ [(HandleSetFileStore : Env P σ → Request → σ → Run P σ), HandleGetFileStore,
        HandleGetFileState, HandleSetFileRule, HandleGetFileRule, HandleDeleteFileRule],
      (H env r st).outcome = .wrote ⟨some "application/json", 401, .errorMap e.msg⟩
        ∧ (H env r st).calls = []
        ∧ (H env r st).state = st := by
  intro H hH
  simp only [List.mem_cons, List.mem_singleton, List.not_mem_nil, or_false] at hH
  rcases hH with h | h | h | h | h | h <;> subst h <;>
    simp [HandleSetFileStore, HandleGetFileStore, HandleGetFileState, HandleSetFileRule,
      HandleGetFileRule, HandleDeleteFileRule, hreject, unauthorized, StatusUnauthorized]

/-- The hypothesis of C3 holds of `strangerRequest` on `exampleEnv`. -/
theorem unauthorized_short_circuit_witness :
    (HandleSetFileRule exampleEnv strangerRequest exampleState).outcome =
        .wrote ⟨some "application/json", 401, .errorMap "invalid token"⟩
      ∧ (HandleSetFileRule exampleEnv strangerRequest exampleState).calls = []
      ∧ (HandleSetFileRule exampleEnv strangerRequest exampleState).state = exampleState :=
  unauthorized_short_circuit exampleEnv strangerRequest exampleState ⟨"invalid token"⟩
    (by decide) HandleSetFileRule (by simp)

/-- C4. On an authorized request each mutating handler invokes its sync-manager
operation exactly once, with the project id (and rule id) of the request path,
and answers 200 with `{}` exactly when the operation returns no error, 500
with the operation's error message otherwise, and no other status. -/
theorem mutating_handlers_report (env : Env P σ) (r : Request) (st : σ)
    (hauth : env.IsTokenValid (env.GetTokenFromHeader r) = none) :
    MutationReported (HandleSetFileStore env r st)
        (.SetFileStore ⟨10⟩ (mapIndex r.Vars "project") (env.DecodeFileStore r.Body).1)
        (env.SetFileStore ⟨10⟩ (mapIndex r.Vars "project") (env.DecodeFileStore r.Body).1 st)
      ∧ MutationReported (HandleSetFileRule env r st)
        (.SetFileRule ⟨10⟩ (mapIndex r.Vars "project") (mapIndex r.Vars "id")
          (env.DecodeFileRule r.Body).1)
        (env.SetFileRule ⟨10⟩ (mapIndex r.Vars "project") (mapIndex r.Vars "id")
          (env.DecodeFileRule r.Body).1 st)
      ∧ MutationReported (HandleDeleteFileRule env r st)
        (.SetDeleteFileRule ⟨10⟩ (mapIndex r.Vars "project") (mapIndex r.Vars "id"))
        (env.SetDeleteFileRule ⟨10⟩ (mapIndex r.Vars "project") (mapIndex r.Vars "id") st) := by
  refine ⟨?_, ?_, ?_⟩
  · rcases h : env.SetFileStore ⟨10⟩ (mapIndex r.Vars "project")
      (env.DecodeFileStore r.Body).1 st with ⟨_ | e, st1⟩ <;>
      simp [MutationReported, HandleSetFileStore, hauth, h, StatusOK,
        StatusInternalServerError]
  · rcases h : env.SetFileRule ⟨10⟩ (mapIndex r.Vars "project") (mapIndex r.Vars "id")
      (env.DecodeFileRule r.Body).1 st with ⟨_ | e, st1⟩ <;>
      simp [MutationReported, HandleSetFileRule, hauth, h, StatusOK,
        StatusInternalServerError]
  · rcases h : env.SetDeleteFileRule ⟨10⟩ (mapIndex r.Vars "project") (mapIndex r.Vars "id")
      st with ⟨_ | e, st1⟩ <;>
      simp [MutationReported, HandleDeleteFileRule, hauth, h, StatusOK,
        StatusInternalServerError]

/-- The hypothesis of C4 holds of `adminRequest` on `exampleEnv`. -/
theorem mutating_handlers_report_witness :
    MutationReported (HandleSetFileStore exampleEnv adminRequest exampleState)
        (.SetFileStore ⟨10⟩ "p1" (1 : Nat)) (none, (1, [("r1", 5), ("r2", 6)]))
      ∧ MutationReported (HandleSetFileRule exampleEnv adminRequest exampleState)
        (.SetFileRule ⟨10⟩ "p1" "r1" (1 : Nat)) (none, (1, [("r1", 1), ("r2", 6)]))
      ∧ MutationReported (HandleDeleteFileRule exampleEnv adminRequest exampleState)
        (.SetDeleteFileRule ⟨10⟩ "p1" "r1") (none, (1, [("r2", 6)])) :=
  mutating_handlers_report exampleEnv adminRequest exampleState (by decide)

/-- C5. On an authorized request `HandleGetFileState` always answers 200: with
`{result: true}` when the file module's `GetState` returns no error, and with
`{result: false, error: message}` when it returns an error. -/
theorem HandleGetFileState_always_ok (env : Env P σ) (r : Request) (st : σ)
    (hauth : env.IsTokenValid (env.GetTokenFromHeader r) = none) :
    (HandleGetFileState env r st).calls = [.GetState ⟨5⟩]
      ∧ ((env.GetState ⟨5⟩ st).1 = none →
          (HandleGetFileState env r st).outcome =
            .wrote ⟨some "application/json", 200, .response (.bool true) ""⟩)
      ∧ (∀ e, (env.GetState ⟨5⟩ st).1 = some e →
          (HandleGetFileState env r st).outcome =
            .wrote ⟨some "application/json", 200, .response (.bool false) e.msg⟩)
      ∧ (∃ resp, (HandleGetFileState env r st).outcome = .wrote resp ∧ resp.status = 200) := by
  rcases h : env.GetState ⟨5⟩ st with ⟨_ | e, st1⟩ <;>
    simp [HandleGetFileState, hauth, h, StatusOK]

/-- The hypothesis of C5 holds of `adminRequest` on `exampleEnv`, in a state
where `GetState` fails. -/
theorem HandleGetFileState_always_ok_witness :
    (exampleEnv.GetState ⟨5⟩ (0, [])).1 = some ⟨"file store not configured"⟩
      ∧ (HandleGetFileState exampleEnv adminRequest (0, [])).outcome =
          .wrote ⟨some "application/json", 200,
            .response (.bool false) "file store not configured"⟩ :=
  ⟨rfl, (HandleGetFileState_always_ok exampleEnv adminRequest (0, []) (by decide)).2.2.1
    ⟨"file store not configured"⟩ rfl⟩

/-- C6, refuted at `malformedRequest`.  The body `not json` is not JSON and the
decoders report an error for it, yet `HandleSetFileStore` and `HandleSetFileRule`
submit the zero value to the sync manager and answer 200 with `{}`: no
validation error reaches the caller. -/
theorem malformed_body_is_submitted :
    exampleEnv.IsTokenValid (exampleEnv.GetTokenFromHeader malformedRequest) = none
      ∧ (exampleEnv.DecodeFileStore malformedRequest.Body).2 = some ⟨"invalid character"⟩
      ∧ (exampleEnv.DecodeFileRule malformedRequest.Body).2 = some ⟨"invalid character"⟩
      ∧ (HandleSetFileStore exampleEnv malformedRequest exampleState).calls =
          [.SetFileStore ⟨10⟩ "p1" (0 : Nat)]
      ∧ (HandleSetFileStore exampleEnv malformedRequest exampleState).outcome =
          .wrote ⟨some "application/json", 200, .emptyMap⟩
      ∧ (HandleSetFileStore exampleEnv malformedRequest exampleState).state =
          (0, [("r1", 5), ("r2", 6)])
      ∧ (HandleSetFileRule exampleEnv malformedRequest exampleState).calls =
          [.SetFileRule ⟨10⟩ "p1" "r1" (0 : Nat)]
      ∧ (HandleSetFileRule exampleEnv malformedRequest exampleState).outcome =
          .wrote ⟨some "application/json", 200, .emptyMap⟩
      ∧ (HandleSetFileRule exampleEnv malformedRequest exampleState).state =
          (1, [("r1", 0), ("r2", 6)]) := by
  refine ⟨by decide, rfl, rfl, rfl, rfl, rfl, rfl, rfl, rfl⟩

/-- C6, amended.  On an authorized request whose body the decoder fails on,
`HandleSetFileStore` and `HandleSetFileRule` discard the decoder's error: each
submits the value the decoder left to the sync manager, exactly once, and
answers as for any other body, 200 with `{}` when the operation returns no
error and 500 with the operation's error message otherwise. -/
theorem decode_error_is_discarded (env : Env P σ) (r : Request) (st : σ)
    (dstore drule : GoError)
    (hauth : env.IsTokenValid (env.GetTokenFromHeader r) = none)
    (_hstore : (env.DecodeFileStore r.Body).2 = some dstore)
    (_hrule : (env.DecodeFileRule r.Body).2 = some drule) :
    MutationReported (HandleSetFileStore env r st)
        (.SetFileStore ⟨10⟩ (mapIndex r.Vars "project") (env.DecodeFileStore r.Body).1)
        (env.SetFileStore ⟨10⟩ (mapIndex r.Vars "project") (env.DecodeFileStore r.Body).1 st)
      ∧ MutationReported (HandleSetFileRule env r st)
        (.SetFileRule ⟨10⟩ (mapIndex r.Vars "project") (mapIndex r.Vars "id")
          (env.DecodeFileRule r.Body).1)
        (env.SetFileRule ⟨10⟩ (mapIndex r.Vars "project") (mapIndex r.Vars "id")
          (env.DecodeFileRule r.Body).1 st) := by
  refine ⟨?_, ?_⟩
  · rcases h : env.SetFileStore ⟨10⟩ (mapIndex r.Vars "project")
      (env.DecodeFileStore r.Body).1 st with ⟨_ | e, st1⟩ <;>
      simp [MutationReported, HandleSetFileStore, hauth, h, StatusOK,
        StatusInternalServerError]
  · rcases h : env.SetFileRule ⟨10⟩ (mapIndex r.Vars "project") (mapIndex r.Vars "id")
      (env.DecodeFileRule r.Body).1 st with ⟨_ | e, st1⟩ <;>
      simp [MutationReported, HandleSetFileRule, hauth, h, StatusOK,
        StatusInternalServerError]

/-- The hypotheses of the amended C6 hold of `malformedRequest` on
`exampleEnv`. -/
theorem decode_error_is_discarded_witness :
    MutationReported (HandleSetFileStore exampleEnv malformedRequest exampleState)
        (.SetFileStore ⟨10⟩ "p1" (0 : Nat)) (none, (0, [("r1", 5), ("r2", 6)]))
      ∧ MutationReported (HandleSetFileRule exampleEnv malformedRequest exampleState)
        (.SetFileRule ⟨10⟩ "p1" "r1" (0 : Nat)) (none, (1, [("r1", 0), ("r2", 6)])) :=
  decode_error_is_discarded exampleEnv malformedRequest exampleState
    ⟨"invalid character"⟩ ⟨"invalid character"⟩ (by decide) rfl rfl

/-- C7. On an authorized request `HandleGetFileRule` never reads `ruleName[0]`
out of bounds; it calls `GetFileStoreRules` once, with the empty rule name when
the query string has no `id` and with the first `id` value when it has one;
and it answers 200 with the returned rules under `result` when the call returns
no error, 500 with the error message under `error` otherwise. -/
theorem HandleGetFileRule_rule_id (env : Env P σ) (r : Request) (st : σ)
    (hauth : env.IsTokenValid (env.GetTokenFromHeader r) = none) :
    (HandleGetFileRule env r st).outcome ≠ .indexOutOfRange
      ∧ (List.lookup "id" r.RawQuery = none →
          (HandleGetFileRule env r st).calls =
            [.GetFileStoreRules ⟨10⟩ (mapIndex r.Vars "project") ""])
      ∧ (∀ v, List.lookup "id" r.RawQuery = some v →
          (HandleGetFileRule env r st).calls =
            [.GetFileStoreRules ⟨10⟩ (mapIndex r.Vars "project") v])
      ∧ (∀ rules, (env.GetFileStoreRules ⟨10⟩ (mapIndex r.Vars "project")
            ((List.lookup "id" r.RawQuery).getD "") st).1 = (rules, none) →
          (HandleGetFileRule env r st).outcome =
            .wrote ⟨some "application/json", 200, .response (.rules rules) ""⟩)
      ∧ (∀ rules e, (env.GetFileStoreRules ⟨10⟩ (mapIndex r.Vars "project")
            ((List.lookup "id" r.RawQuery).getD "") st).1 = (rules, some e) →
          (HandleGetFileRule env r st).outcome =
            .wrote ⟨none, 500, .errorMap e.msg⟩) := by
  have hid := ruleID_eq r
  rcases h : env.GetFileStoreRules ⟨10⟩ (mapIndex r.Vars "project")
    ((List.lookup "id" r.RawQuery).getD "") st with ⟨⟨rules, _ | e⟩, st1⟩
  · refine ⟨?_, ?_, ?_, ?_, ?_⟩
    · simp [HandleGetFileRule, hauth, hid, h]
    · intro hq
      rw [hq] at h
      simp only [Option.getD_none, Option.getD_some] at h
      simp [HandleGetFileRule, hauth, hid, hq, h]
    · intro v hq
      rw [hq] at h
      simp only [Option.getD_none, Option.getD_some] at h
      simp [HandleGetFileRule, hauth, hid, hq, h]
    · intro rules2 h2
      simp at h2
      simp [HandleGetFileRule, hauth, hid, h, h2, StatusOK]
    · intro rules2 e2 h2
      simp at h2
  · refine ⟨?_, ?_, ?_, ?_, ?_⟩
    · simp [HandleGetFileRule, hauth, hid, h]
    · intro hq
      rw [hq] at h
      simp only [Option.getD_none, Option.getD_some] at h
      simp [HandleGetFileRule, hauth, hid, hq, h]
    · intro v hq
      rw [hq] at h
      simp only [Option.getD_none, Option.getD_some] at h
      simp [HandleGetFileRule, hauth, hid, hq, h]
    · intro rules2 h2
      simp at h2
    · intro rules2 e2 h2
      simp at h2
      simp [HandleGetFileRule, hauth, hid, h, h2, StatusInternalServerError]

/-- The hypothesis of C7 holds of `adminRequest` on `exampleEnv`; its query
string is `id=r1`. -/
theorem HandleGetFileRule_rule_id_witness :
    (HandleGetFileRule exampleEnv adminRequest exampleState).calls =
        [.GetFileStoreRules ⟨10⟩ "p1" "r1"]
      ∧ (HandleGetFileRule exampleEnv adminRequest exampleState).outcome =
          .wrote ⟨some "application/json", 200, .response (.rules [("r1", 5)]) ""⟩ :=
  have h := HandleGetFileRule_rule_id exampleEnv adminRequest exampleState (by decide)
  ⟨h.2.2.1 "r1" rfl, h.2.2.2.1 [("r1", 5)] rfl⟩

/-- C8. `HandleDeleteFileRule` ignores the request body: two requests with
the same token and the same path variables `project` and `id` give the same
run, whatever their bodies: the same `SetDeleteFileRule` call, the same status
and the same response body. -/
theorem HandleDeleteFileRule_ignores_body (env : Env P σ) (r₁ r₂ : Request) (st : σ)
    (htoken : env.GetTokenFromHeader r₁ = env.GetTokenFromHeader r₂)
    (hproject : mapIndex r₁.Vars "project" = mapIndex r₂.Vars "project")
    (hid : mapIndex r₁.Vars "id" = mapIndex r₂.Vars "id") :
    HandleDeleteFileRule env r₁ st = HandleDeleteFileRule env r₂ st := by
  simp only [HandleDeleteFileRule, htoken, hproject, hid]

/-- The hypotheses of C8 hold of `adminRequest` and `malformedRequest`, whose
bodies differ. -/
theorem HandleDeleteFileRule_ignores_body_witness :
    adminRequest.Body ≠ malformedRequest.Body
      ∧ HandleDeleteFileRule exampleEnv adminRequest exampleState =
          HandleDeleteFileRule exampleEnv malformedRequest exampleState :=
  ⟨by decide, HandleDeleteFileRule_ignores_body exampleEnv adminRequest malformedRequest
    exampleState rfl rfl rfl⟩

end handlers

end SpaceCloud
